import Mathlib

/-!
Verification of the PSPLIB-to-proj converter (src/tools/psplib_to_proj.py).

The development is a shallow embedding of the converter:

* Python dictionaries are association lists (`List (K × V)`) with
  insertion-order iteration; `dinsert` mirrors `d[k] = v` (update in place,
  append when new), `dlookup` mirrors `d[k]` / `d.get(k)`.
* Python `str.split()` / `str.split(c)` / `str.isdigit()` / `int(...)` are
  modelled over the character lists of strings (`pySplit`, `pyLines`,
  `pyIsDigit`, `pyInt?`).  `int(...)` is modelled for the tokens the
  converter feeds it: an optional sign followed by ASCII decimal digits;
  Python-only spellings (underscores, unicode digits, surrounding
  whitespace) do not occur in whitespace-split tokens of benchmark files.
* Fallible code returns `Except String`: a raised `ValueError` is
  `Except.error`, mirroring CPython's message prefix for `int()`.
* `sorted(...)` is `sortByKey`: an insertion sort by the sort key.  The
  converter only sorts lists of distinct integers and dictionary items with
  distinct keys, where Python's tuple order coincides with ordering by key.
-/

/-- The characters Python's no-argument `str.split()` splits on. -/
def pyIsSpace (c : Char) : Bool :=
  decide (c = ' ') || decide (c = '\t') || decide (c = '\n') || decide (c = '\r') ||
    decide (c = '\x0B') || decide (c = '\x0C')

/-- Accumulator worker for `pySplit`: tokens are maximal runs of
non-whitespace characters, empty tokens are never produced. -/
def splitWsAux : List Char → List Char → List (List Char)
  | [], acc => if acc.isEmpty then [] else [acc.reverse]
  | c :: cs, acc =>
    if pyIsSpace c then
      if acc.isEmpty then splitWsAux cs [] else acc.reverse :: splitWsAux cs []
    else splitWsAux cs (c :: acc)

/-- Python `str.split()` (no argument): split on whitespace runs, no empty
tokens. -/
def pySplit (s : String) : List String := (splitWsAux s.data []).map String.mk

/-- Accumulator worker for `pyLines`. -/
def splitNlAux : List Char → List Char → List (List Char)
  | [], acc => [acc.reverse]
  | c :: cs, acc =>
    if decide (c = '\n') then acc.reverse :: splitNlAux cs []
    else splitNlAux cs (c :: acc)

/-- The lines of a text, split at newline characters (how
`for line in f` tokenizes together with the subsequent `line.split()`). -/
def pyLines (s : String) : List String := (splitNlAux s.data []).map String.mk

/-- Python `str.isdigit()` on the ASCII tokens of benchmark files: nonempty
and all decimal digits. -/
def pyIsDigit (s : String) : Bool := !s.data.isEmpty && s.data.all Char.isDigit

/-- Value of a nonempty list of decimal digits. -/
def digitsVal (cs : List Char) : Nat :=
  cs.foldl (fun a c => a * 10 + (c.toNat - '0'.toNat)) 0

/-- Python `int(token)` on a whitespace-split token: optional sign followed
by at least one decimal digit; anything else raises (here: `none`). -/
def pyInt? (s : String) : Option Int :=
  match s.data with
  | [] => none
  | c :: rest =>
    if c = '-' then
      if rest.isEmpty then none
      else if rest.all Char.isDigit then some (-(digitsVal rest : Int)) else none
    else if c = '+' then
      if rest.isEmpty then none
      else if rest.all Char.isDigit then some ((digitsVal rest : Int)) else none
    else if (c :: rest).all Char.isDigit then some ((digitsVal (c :: rest) : Int))
    else none

/-- Python `int(token)` with the `ValueError` made explicit. -/
def pyIntE (s : String) : Except String Int :=
  match pyInt? s with
  | some v => Except.ok v
  | none => Except.error ("invalid literal for int(): " ++ s)

/-- Python `str.lower()` (the converter lowercases labels such as "R1"). -/
def pyLower (s : String) : String := String.mk (s.data.map Char.toLower)

deriving instance DecidableEq for Except

/-- First-match lookup in an association list: Python `d.get(k)` / `d[k]`. -/
def dlookup {K V : Type} [DecidableEq K] (k : K) : List (K × V) → Option V
  | [] => none
  | kv :: rest => if kv.1 = k then some kv.2 else dlookup k rest

/-- Python `d.get(k, v0)`. -/
def dgetD {K V : Type} [DecidableEq K] (d : List (K × V)) (k : K) (v0 : V) : V :=
  (dlookup k d).getD v0

/-- Python `d.keys()` in iteration order. -/
def dkeys {K V : Type} (d : List (K × V)) : List K := d.map Prod.fst

/-- The dictionary invariant: every key occurs once. -/
def NodupKeys {K V : Type} (d : List (K × V)) : Prop := (dkeys d).Nodup

/-- Python `d[k] = v`: overwrite in place when the key exists, append
otherwise (dictionaries iterate in insertion order). -/
def dinsert {K V : Type} [DecidableEq K] (k : K) (v : V) : List (K × V) → List (K × V)
  | [] => [(k, v)]
  | kv :: rest => if kv.1 = k then (k, v) :: rest else kv :: dinsert k v rest

/-- Ordering by a sort key. -/
def keyLE {α K : Type} (f : α → K) [LinearOrder K] : α → α → Prop :=
  fun a b => f a ≤ f b

instance {α K : Type} (f : α → K) [LinearOrder K] : DecidableRel (keyLE f) :=
  fun a b => decidable_of_iff (f a ≤ f b) Iff.rfl

instance {α K : Type} (f : α → K) [LinearOrder K] : IsTotal α (keyLE f) :=
  ⟨fun a b => le_total (f a) (f b)⟩

instance {α K : Type} (f : α → K) [LinearOrder K] : IsTrans α (keyLE f) :=
  ⟨fun _ _ _ h1 h2 => le_trans h1 h2⟩

/-- Strict ordering by a sort key. -/
def keyLT {α K : Type} (f : α → K) [LinearOrder K] : α → α → Prop :=
  fun a b => f a < f b

instance {α K : Type} (f : α → K) [LinearOrder K] : IsAntisymm α (keyLT f) :=
  ⟨fun _ _ h1 h2 => absurd h1 (lt_asymm h2)⟩

/-- Python `sorted(...)` by a sort key.  The converter sorts lists of
distinct integers and dictionary items with distinct first components, so
sorting by key agrees with Python's order on the sorted values. -/
def sortByKey {α K : Type} (f : α → K) [LinearOrder K] (l : List α) : List α :=
  List.insertionSort (keyLE f) l

/-- Boolean prefix test on character lists (for stating which rendered
lines carry a given marker such as "    depends:"). -/
def isPre : List Char → List Char → Bool
  | [], _ => true
  | _ :: _, [] => false
  | c :: cs, d :: ds => decide (c = d) && isPre cs ds

/-- Whether the line `l` starts with the text `p`. -/
def lineHasPfx (p l : String) : Bool := isPre p.data l.data

/-- The non-strict suffixes of a list, longest first. -/
def suffixesL {α : Type} : List α → List (List α)
  | [] => [[]]
  | c :: cs => (c :: cs) :: suffixesL cs

/-- Python `sub in s` on strings: some suffix of `s` starts with `sub`. -/
def pyInStr (sub s : String) : Bool := (suffixesL s.data).any (fun t => isPre sub.data t)

/-- Whether `s` ends with `suffix`. -/
def strEndsWith (suffix s : String) : Bool := isPre suffix.data.reverse s.data.reverse

/-! ## The parser (`parse_psplib`)

The Python function reads the file and carves out the sections with
regular expressions; the loops over the carved-out section lines do all the
per-line work.  The embedding takes the regex layer's results as inputs:
each header field is the matched digit group (`none` when the regex did not
match), `precSection`/`reqSection` are the section's content lines (the
captured group split at newlines), and `capTokens` are the integers of the
availabilities line (its regex only matches runs of digits, so the tokens
are naturals).  An absent section is `none`. -/

structure PSPLIBInstance where
  name : String
  jobs : Nat
  resources : Nat
  horizon : Nat
  precedence : List (Int × List Int)
  durations : List (Int × Int)
  demands : List (Int × List (String × Int))
  capacities : List (String × Int)
deriving DecidableEq

/-- The comprehension `[int(s) for s in parts]`: first conversion failure raises. -/
def intListE : List String → Except String (List Int)
  | [] => Except.ok []
  | t :: ts =>
    match pyInt? t with
    | none => Except.error ("invalid literal for int(): " ++ t)
    | some v =>
      match intListE ts with
      | Except.error e => Except.error e
      | Except.ok vs => Except.ok (v :: vs)

/-- One content line of the PRECEDENCE RELATIONS block: lines with fewer
than 3 tokens are skipped; otherwise `int(parts[0])`, `int(parts[2])` and
the successor conversions can each raise. -/
def parsePrecTokens (acc : List (Int × List Int)) :
    List String → Except String (List (Int × List Int))
  | t0 :: _ :: t2 :: rest =>
    (match pyInt? t0 with
     | none => Except.error ("invalid literal for int(): " ++ t0)
     | some jobId =>
       match pyInt? t2 with
       | none => Except.error ("invalid literal for int(): " ++ t2)
       | some numSucc =>
         if 0 < numSucc then
           match intListE (rest.take numSucc.toNat) with
           | Except.error e => Except.error e
           | Except.ok succs => Except.ok (dinsert jobId succs acc)
         else Except.ok (dinsert jobId [] acc))
  | _ => Except.ok acc

def parsePrecLine (acc : List (Int × List Int)) (line : String) :
    Except String (List (Int × List Int)) :=
  parsePrecTokens acc (pySplit line)

/-- The loop over the PRECEDENCE RELATIONS content lines. -/
def parsePrecLines (acc : List (Int × List Int)) :
    List String → Except String (List (Int × List Int))
  | [] => Except.ok acc
  | l :: ls =>
    match parsePrecLine acc l with
    | Except.error e => Except.error e
    | Except.ok acc2 => parsePrecLines acc2 ls

/-- The demand loop `for i, demand in enumerate(parts[3:3+num_resources])`:
only strictly positive demands are kept, under labels `R{i+1}`. -/
def demandListE (i : Nat) : List String → Except String (List (String × Int))
  | [] => Except.ok []
  | t :: ts =>
    match pyInt? t with
    | none => Except.error ("invalid literal for int(): " ++ t)
    | some v =>
      match demandListE (i + 1) ts with
      | Except.error e => Except.error e
      | Except.ok rest =>
        Except.ok (if 0 < v then ("R" ++ toString (i + 1), v) :: rest else rest)

/-- One content line of the REQUESTS/DURATIONS block: skipped unless it has
at least 3 tokens and a digit-string first token; then the duration
(`int(parts[2])`) and each demand conversion can raise. -/
def parseReqTokens (numResources : Nat)
    (acc : List (Int × Int) × List (Int × List (String × Int))) :
    List String → Except String (List (Int × Int) × List (Int × List (String × Int)))
  | t0 :: _ :: t2 :: rest =>
    if pyIsDigit t0 then
      match pyInt? t0 with
      | none => Except.error ("invalid literal for int(): " ++ t0)
      | some jobId =>
        match pyInt? t2 with
        | none => Except.error ("invalid literal for int(): " ++ t2)
        | some duration =>
          match demandListE 0 (rest.take numResources) with
          | Except.error e => Except.error e
          | Except.ok jobDemands =>
            Except.ok (dinsert jobId duration acc.1, dinsert jobId jobDemands acc.2)
    else Except.ok acc
  | _ => Except.ok acc

def parseReqLine (numResources : Nat)
    (acc : List (Int × Int) × List (Int × List (String × Int))) (line : String) :
    Except String (List (Int × Int) × List (Int × List (String × Int))) :=
  parseReqTokens numResources acc (pySplit line)

/-- The loop over the REQUESTS/DURATIONS content lines; the state is the
pair of the `durations` and `demands` dictionaries. -/
def parseReqLines (numResources : Nat)
    (acc : List (Int × Int) × List (Int × List (String × Int))) :
    List String → Except String (List (Int × Int) × List (Int × List (String × Int)))
  | [] => Except.ok acc
  | l :: ls =>
    match parseReqLine numResources acc l with
    | Except.error e => Except.error e
    | Except.ok acc2 => parseReqLines numResources acc2 ls

/-- The loop `for i, cap in enumerate(caps)` building the capacity entry for label R(i+1). -/
def capList (i : Nat) : List Nat → List (String × Int)
  | [] => []
  | c :: cs => ("R" ++ toString (i + 1), (c : Int)) :: capList (i + 1) cs

/-- The RESOURCEAVAILABILITIES block: the captured integers truncated to
`num_resources`, or the default capacity 10 for `R1..Rn` when the block's
regex did not match. -/
def parseCaps (numResources : Nat) : Option (List Nat) → List (String × Int)
  | some caps => capList 0 (caps.take numResources)
  | none => capList 0 (List.replicate numResources 10)

/-- The precedence dictionary of the PRECEDENCE RELATIONS section: empty
when the section's regex did not match. -/
def precResult : Option (List String) → Except String (List (Int × List Int))
  | none => Except.ok []
  | some ls => parsePrecLines [] ls

/-- The durations/demands dictionaries of the REQUESTS/DURATIONS section:
empty when the section's regex did not match. -/
def reqResult (numResources : Nat) : Option (List String) →
    Except String (List (Int × Int) × List (Int × List (String × Int)))
  | none => Except.ok ([], [])
  | some ls => parseReqLines numResources ([], []) ls

/-- Function `parse_psplib`, after the file read and the regex layer (see the
section comment): header fields default to 0 jobs, 4 resources, horizon
100; absent sections yield empty dictionaries resp. default capacities; a
`ValueError` raised by a section loop propagates. -/
def parse_psplib (name : String) (jobsTok resourcesTok horizonTok : Option Nat)
    (precSection reqSection : Option (List String)) (capTokens : Option (List Nat)) :
    Except String PSPLIBInstance :=
  match precResult precSection with
  | Except.error e => Except.error e
  | Except.ok precedence =>
    match reqResult (resourcesTok.getD 4) reqSection with
    | Except.error e => Except.error e
    | Except.ok dd =>
      Except.ok (PSPLIBInstance.mk name (jobsTok.getD 0) (resourcesTok.getD 4)
        (horizonTok.getD 100) precedence dd.1 dd.2
        (parseCaps (resourcesTok.getD 4) capTokens))

/-! ## The translator (`convert_to_proj`)

`round(demand * 100 / capacity)` divides machine integers into a binary64
float and rounds half-to-even.  `pyRoundDiv` rounds the exact rational
`num/den` half-to-even, which agrees with the float computation whenever
`num/den` is exactly representable (in particular at every `.5` tie in the
benchmark range) and everywhere for capacities below `2^40`.  Capacity 0 is
outside this model's domain: Python raises `ZeroDivisionError` at
`round(demand * 100 / capacity)` and `convert_to_proj` emits nothing, while
`pyRoundDiv` totalises the branch to 0, so every theorem about rendered
percentages carries an explicit positive-capacity hypothesis (capacity 0 is
parse-reachable — an availabilities line supplying the digit run `0` — while
negative capacities never occur, being parsed from digit runs; the fallback
capacity 10 for undeclared labels is positive). -/

/-- Round-half-to-even of the exact rational `num/den`.  Faithful to
Python's `round(num / den)` only for `den > 0`; at `den ≤ 0` it returns the
conventional value 0 where Python's division raises `ZeroDivisionError`. -/
def pyRoundDiv (num den : Int) : Int :=
  if den ≤ 0 then 0
  else
    let q := Int.fdiv num den
    let r := num - q * den
    if 2 * r < den then q
    else if den < 2 * r then q + 1
    else if q % 2 = 0 then q else q + 1

/-- The converter's `round(demand * 100 / capacity)`, under the same
positive-capacity proviso as `pyRoundDiv`: at capacity 0 the source raises
`ZeroDivisionError` instead of producing a value. -/
def pctOf (demand capacity : Int) : Int := pyRoundDiv (demand * 100) capacity

/-- Modelled from the spec: the round-half-away-from-zero tie-break the
spec prescribes for `d*100/c` (named for comparison with `pyRoundDiv`). -/
def specRoundHalfAway (num den : Int) : Int :=
  if 0 ≤ num then Int.fdiv (2 * num + den) (2 * den)
  else -(Int.fdiv (den - 2 * num) (2 * den))

/-- The `real_jobs` list: the job ids with strictly positive duration, ascending. -/
def real_jobs (inst : PSPLIBInstance) : List Int :=
  sortByKey id ((dkeys inst.durations).filter (fun j => decide (0 < dgetD inst.durations j 0)))

/-- The predecessor scan: every `pred_id` whose successor list contains
`jobId` and whose duration (default 0) is strictly positive, in dictionary
iteration order. -/
def predecessorsOf (inst : PSPLIBInstance) (jobId : Int) : List Int :=
  (inst.precedence.filter
    (fun kv => decide (jobId ∈ kv.2) && decide (0 < dgetD inst.durations kv.1 0))).map
    Prod.fst

/-- Python `sorted(predecessors)`. -/
def sortedPreds (inst : PSPLIBInstance) (jobId : Int) : List Int :=
  sortByKey id (predecessorsOf inst jobId)

/-- The lookup `instance.demands.get(job_id, ...)` with an empty default. -/
def demandsOf (inst : PSPLIBInstance) (jobId : Int) : List (String × Int) :=
  dgetD inst.demands jobId []

/-- One `label@pct%` assignment entry. -/
def assignEntry (inst : PSPLIBInstance) (rd : String × Int) : String :=
  pyLower rd.1 ++ ("@" ++ (toString (pctOf rd.2 (dgetD inst.capacities rd.1 10)) ++ "%"))

/-- The assignment entries of a job: its positive demands in sorted label
order, each rendered against the declared capacity (default 10). -/
def assignmentsOf (inst : PSPLIBInstance) (jobId : Int) : List String :=
  (sortByKey Prod.fst (demandsOf inst jobId)).filterMap
    (fun rd => if 0 < rd.2 then some (assignEntry inst rd) else none)

/-- The task header line `task j(id) "Job (id)"` with its opening brace. -/
def taskHeaderLine (jobId : Int) : String :=
  "task j" ++ (toString jobId ++ (" \"Job " ++ (toString jobId ++ "\" \x7b")))

/-- The line `    duration: (d)d`. -/
def durationLine (d : Int) : String := "    duration: " ++ (toString d ++ "d")

/-- The line `    assign: ...` over the given entries. -/
def assignLine (entries : List String) : String :=
  "    assign: " ++ String.intercalate ", " entries

/-- The line `    depends: j..., j...` over the given predecessor ids. -/
def dependsLine (preds : List Int) : String :=
  "    depends: " ++ String.intercalate ", " (preds.map (fun p => "j" ++ toString p))

/-- The lines of one task block.  The duration subscript
`instance.durations[job_id]` always finds its key (the job id comes from
`durations.keys()`), so the defaulted lookup is exact on rendered jobs. -/
def taskLines (inst : PSPLIBInstance) (jobId : Int) : List String :=
  [taskHeaderLine jobId, durationLine (dgetD inst.durations jobId 0)]
    ++ (if (assignmentsOf inst jobId).isEmpty then []
        else [assignLine (assignmentsOf inst jobId)])
    ++ (if (sortedPreds inst jobId).isEmpty then []
        else [dependsLine (sortedPreds inst jobId)])
    ++ ["\x7d"]

/-- The resource blocks, one per capacity entry in sorted label order. -/
def resourceLines (inst : PSPLIBInstance) : List String :=
  (sortByKey Prod.fst inst.capacities).flatMap (fun rc =>
    ["resource " ++ (pyLower rc.1 ++ (" \"" ++ (rc.1 ++ "\" \x7b"))),
     "    rate: 100/day",
     "    # PSPLIB capacity: " ++ (toString rc.2 ++ " units"),
     "\x7d"])

/-- The comment line `# Optimal Makespan: (m) days`. -/
def optimalLine (m : Int) : String := "# Optimal Makespan: " ++ (toString m ++ " days")

/-- The header comments: the makespan comment is guarded by Python
truthiness (`if optimal_makespan:`), so `None` and `0` both omit it. -/
def headerLines (inst : PSPLIBInstance) (optimalMakespan : Option Int) : List String :=
  ["# PSPLIB Instance: " ++ inst.name,
   "# Jobs: " ++ (toString inst.jobs ++ (", Resources: " ++ toString inst.resources))]
    ++ (match optimalMakespan with
        | none => []
        | some m => if m = 0 then [] else [optimalLine m])
    ++ ["# Source: https://www.om-db.wi.tum.de/psplib/", ""]

/-- The project declaration block. -/
def projectLines (inst : PSPLIBInstance) : List String :=
  ["project \"" ++ (inst.name ++ "\" \x7b"),
   "    start: 2026-01-05",
   "    calendar: continuous",
   "\x7d", ""]

/-- The continuous-calendar block. -/
def calendarLines : List String :=
  ["calendar \"continuous\" \x7b",
   "    working_days: mon, tue, wed, thu, fri, sat, sun",
   "\x7d", ""]

/-- All lines `convert_to_proj` appends, in order. -/
def convertLines (inst : PSPLIBInstance) (optimalMakespan : Option Int) : List String :=
  headerLines inst optimalMakespan ++ projectLines inst ++ calendarLines
    ++ resourceLines inst ++ [""]
    ++ (real_jobs inst).flatMap (fun j => taskLines inst j) ++ [""]

/-- Function `convert_to_proj`: the joined text. -/
def convert_to_proj (inst : PSPLIBInstance) (optimalMakespan : Option Int) : String :=
  String.intercalate "\n" (convertLines inst optimalMakespan)

/-! ## The optimal-solutions loader (`parse_optimal_solutions`) -/

/-- One line of the solutions file: stored when it has at least 3 tokens
and a digit-string first token; then `int(parts[1])` / `int(parts[2])` can
still raise; every other line is skipped. -/
def solTokens (acc : List ((Int × Int) × Int)) :
    List String → Except String (List ((Int × Int) × Int))
  | t0 :: t1 :: t2 :: _ =>
    if pyIsDigit t0 then
      match pyInt? t0 with
      | none => Except.error ("invalid literal for int(): " ++ t0)
      | some param =>
        match pyInt? t1 with
        | none => Except.error ("invalid literal for int(): " ++ t1)
        | some instIdx =>
          match pyInt? t2 with
          | none => Except.error ("invalid literal for int(): " ++ t2)
          | some makespan => Except.ok (dinsert (param, instIdx) makespan acc)
    else Except.ok acc
  | _ => Except.ok acc

def solStep (acc : List ((Int × Int) × Int)) (line : String) :
    Except String (List ((Int × Int) × Int)) :=
  solTokens acc (pySplit line)

/-- The loop over the solution file's lines. -/
def solFold (acc : List ((Int × Int) × Int)) :
    List String → Except String (List ((Int × Int) × Int))
  | [] => Except.ok acc
  | l :: ls =>
    match solStep acc l with
    | Except.error e => Except.error e
    | Except.ok acc2 => solFold acc2 ls

/-- Function `parse_optimal_solutions` on the file's text. -/
def parse_optimal_solutions (content : String) : Except String (List ((Int × Int) × Int)) :=
  solFold [] (pyLines content)

/-! ## The batch orchestrator (`batch_convert`)

Per-file conversion (read, parse, optimal-makespan lookup, render, write)
is abstracted as `convertFile : String → Except String String`: `Except.ok`
is the text written for the file, `Except.error` any exception the `try`
body raised.  The output write is the last step of the body and is modelled
as one complete append, per the design's single-complete-write rule. -/

structure BatchResult where
  converted : Nat
  written : List (String × String)
  warnings : List String
deriving DecidableEq

/-- The skip markers: solution/bound files mixed into the directory. -/
def isSolutionFile (name : String) : Bool :=
  pyInStr "opt" name || pyInStr "hrs" name || pyInStr "lb" name

/-- Python `Path(name).stem` for the glob's `*.sm` names: drop the last-dot suffix. -/
def stemChars (cs : List Char) : List Char :=
  match cs.reverse.dropWhile (fun c => !decide (c = '.')) with
  | [] => cs
  | _ :: rest => rest.reverse

/-- Python `Path(name).stem` on the file name. -/
def stemOf (name : String) : String := String.mk (stemChars name.data)

/-- The loop body of `batch_convert` for one candidate file. -/
def batchStep (convertFile : String → Except String String) (acc : BatchResult)
    (name : String) : BatchResult :=
  if isSolutionFile name then acc
  else
    match convertFile name with
    | Except.ok text =>
      BatchResult.mk (acc.converted + 1) (acc.written ++ [(stemOf name ++ ".proj", text)])
        acc.warnings
    | Except.error e =>
      BatchResult.mk acc.converted acc.written
        (acc.warnings ++ ["Warning: Failed to convert " ++ (name ++ (": " ++ e))])

/-- Lexicographic strict order on character lists, by code point (how
Python compares the path strings `sorted` sees). -/
def strLtB : List Char → List Char → Bool
  | [], [] => false
  | [], _ :: _ => true
  | _ :: _, [] => false
  | c :: cs, d :: ds => if c = d then strLtB cs ds else decide (c < d)

/-- The matching non-strict order on strings, as a relation for sorting. -/
def pyStrLE (a b : String) : Prop := strLtB b.data a.data = false

instance : DecidableRel pyStrLE :=
  fun a b => decidable_of_iff (strLtB b.data a.data = false) Iff.rfl

/-- The candidate files, `sorted(input_path.glob('*.sm'))`. -/
def candidateFiles (files : List String) : List String :=
  List.insertionSort pyStrLE (files.filter (fun n => strEndsWith ".sm" n))

/-- Function `batch_convert` over the directory's file names. -/
def batch_convert (files : List String) (convertFile : String → Except String String) :
    BatchResult :=
  (candidateFiles files).foldl (batchStep convertFile) (BatchResult.mk 0 [] [])

/-! ## Equality of instances as mappings (for the determinism claim)

Two dictionaries are equivalent when both have duplicate-free keys and
agree as lookup functions; insertion order is unconstrained. -/

@[reducible]
def DictEquiv {K V : Type} [DecidableEq K] (d1 d2 : List (K × V)) : Prop :=
  NodupKeys d1 ∧ NodupKeys d2 ∧
    (∀ k ∈ dkeys d1, dlookup k d1 = dlookup k d2) ∧
    (∀ k ∈ dkeys d2, dlookup k d1 = dlookup k d2)

instance {K V : Type} [DecidableEq K] (d : List (K × V)) : Decidable (NodupKeys d) :=
  decidable_of_iff ((dkeys d).Nodup) Iff.rfl

instance {K V : Type} [DecidableEq K] [DecidableEq V] (d1 d2 : List (K × V)) :
    Decidable (DictEquiv d1 d2) :=
  inferInstanceAs (Decidable (_ ∧ _ ∧ _ ∧ _))

/-- Equivalence of optional dictionaries (for the nested `demands` values). -/
def OptDictEquiv {K V : Type} [DecidableEq K] :
    Option (List (K × V)) → Option (List (K × V)) → Prop
  | none, none => True
  | some a, some b => DictEquiv a b
  | _, _ => False

instance {K V : Type} [DecidableEq K] [DecidableEq V] :
    ∀ (o1 o2 : Option (List (K × V))), Decidable (OptDictEquiv o1 o2)
  | none, none => Decidable.isTrue trivial
  | none, some _ => Decidable.isFalse (fun hf => hf)
  | some _, none => Decidable.isFalse (fun hf => hf)
  | some a, some b => inferInstanceAs (Decidable (DictEquiv a b))

/-- The `demands` dictionaries agree as mappings, their values compared as
mappings in turn. -/
@[reducible]
def DemandsEquiv (d1 d2 : List (Int × List (String × Int))) : Prop :=
  NodupKeys d1 ∧ NodupKeys d2 ∧
    (∀ k ∈ dkeys d1, OptDictEquiv (dlookup k d1) (dlookup k d2)) ∧
    (∀ k ∈ dkeys d2, OptDictEquiv (dlookup k d1) (dlookup k d2))

/-- Two instances are equal as values: equal scalar fields, and all four
dictionaries equal as mappings, independently of insertion order. -/
@[reducible]
def InstEquiv (i1 i2 : PSPLIBInstance) : Prop :=
  i1.name = i2.name ∧ i1.jobs = i2.jobs ∧ i1.resources = i2.resources ∧
    i1.horizon = i2.horizon ∧ DictEquiv i1.precedence i2.precedence ∧
    DictEquiv i1.durations i2.durations ∧ DemandsEquiv i1.demands i2.demands ∧
    DictEquiv i1.capacities i2.capacities

/-! ## The batch loop as a filterMap -/

/-- What one candidate contributes to the written outputs. -/
def batchOut (convertFile : String → Except String String) (n : String) :
    Option (String × String) :=
  if isSolutionFile n then none
  else
    match convertFile n with
    | Except.ok t => some (stemOf n ++ ".proj", t)
    | Except.error _ => none

/-- What one candidate contributes to the logged warnings. -/
def batchWarn (convertFile : String → Except String String) (n : String) : Option String :=
  if isSolutionFile n then none
  else
    match convertFile n with
    | Except.ok _ => none
    | Except.error e => some ("Warning: Failed to convert " ++ (n ++ (": " ++ e)))

/-! ## Demand labels and capacity keys -/

/-- The availabilities line, when present, supplies at least `n` integers. -/
def CapTokensCover (n : Nat) : Option (List Nat) → Prop
  | none => True
  | some caps => n ≤ caps.length

instance (n : Nat) : ∀ (o : Option (List Nat)), Decidable (CapTokensCover n o)
  | none => Decidable.isTrue trivial
  | some caps => inferInstanceAs (Decidable (n ≤ caps.length))

/-- All demand labels stored in a demands dictionary are `R1..Rn`. -/
def DemandLabelsOK (n : Nat) (dd : List (Int × List (String × Int))) : Prop :=
  ∀ kv ∈ dd, ∀ rd ∈ kv.2, ∃ k, 1 ≤ k ∧ k ≤ n ∧ rd.1 = "R" ++ toString k

/-! ## Concrete instances used by witnesses and counterexamples -/

/-- The end-to-end scenario instance: supersource 1, jobs 2 and 3 of
duration 5 (job 2 demands 5 of R1), supersink 4, one resource R1 of
capacity 10. -/
def instA : PSPLIBInstance :=
  PSPLIBInstance.mk "demo" 4 1 30
    [(1, [2, 3]), (2, [4]), (3, [4]), (4, [])]
    [(1, 0), (2, 5), (3, 5), (4, 0)]
    [(2, [("R1", 5)]), (3, [])]
    [("R1", 10)]

/-- A two-job chain with positive durations: job 2 depends on job 1. -/
def instB : PSPLIBInstance :=
  PSPLIBInstance.mk "b" 2 0 10 [(1, [2])] [(1, 2), (2, 3)] [] []

/-- An instance whose dictionaries are stored in one insertion order. -/
def instC : PSPLIBInstance :=
  PSPLIBInstance.mk "c" 4 2 30 [(1, [2]), (2, [])] [(1, 3), (2, 4)]
    [(1, [("R1", 2), ("R2", 1)]), (2, [])] [("R1", 10), ("R2", 5)]

/-- The same mappings as `instC`, stored in another insertion order. -/
def instD : PSPLIBInstance :=
  PSPLIBInstance.mk "c" 4 2 30 [(2, []), (1, [2])] [(2, 4), (1, 3)]
    [(2, []), (1, [("R2", 1), ("R1", 2)])] [("R2", 5), ("R1", 10)]

/-- What parsing the single requests line "5 1 -3" produces: a job whose
duration is the negative integer -3. -/
def instNegDur : PSPLIBInstance :=
  PSPLIBInstance.mk "x" 0 4 100 [] [(5, -3)] [(5, [])]
    [("R1", 10), ("R2", 10), ("R3", 10), ("R4", 10)]

/-- What parsing produces when the availabilities line supplies fewer
integers (one) than the declared resource count (two). -/
def instShortCaps : PSPLIBInstance :=
  PSPLIBInstance.mk "x" 0 2 100 [] [(3, 5)] [(3, [("R1", 1), ("R2", 1)])] [("R1", 7)]

/-- As `instShortCaps` but with the availabilities line supplying both
capacities. -/
def instFullCaps : PSPLIBInstance :=
  PSPLIBInstance.mk "x" 0 2 100 [] [(3, 5)] [(3, [("R1", 1), ("R2", 1)])]
    [("R1", 7), ("R2", 9)]

/-- One job demanding 1 unit of R1 against capacity 8: the exact `.5`
rounding boundary (100/8 = 12.5). -/
def instC3 : PSPLIBInstance :=
  PSPLIBInstance.mk "c3" 3 1 30 [] [(2, 3)] [(2, [("R1", 1)])] [("R1", 8)]

/-! ## General lemmas: prefixes, sorting, dictionaries -/

theorem isPre_take : ∀ (p a x : List Char), isPre p (a ++ x) = true →
    isPre (p.take a.length) a = true
  | _, [], _, _ => rfl
  | [], _ :: _, _, _ => rfl
  | c :: cs, d :: ds, x, h => by
    simp only [List.cons_append, isPre, Bool.and_eq_true, decide_eq_true_eq] at h
    simp only [List.length_cons, List.take_succ_cons, isPre, Bool.and_eq_true,
      decide_eq_true_eq]
    exact ⟨h.1, isPre_take cs ds x h.2⟩

theorem isPre_extend : ∀ (p a x : List Char), isPre p a = true → isPre p (a ++ x) = true
  | [], _, _, _ => rfl
  | _ :: _, [], _, h => by simp [isPre] at h
  | c :: cs, d :: ds, x, h => by
    simp only [isPre, Bool.and_eq_true, decide_eq_true_eq] at h
    simp only [List.cons_append, isPre, Bool.and_eq_true, decide_eq_true_eq]
    exact ⟨h.1, isPre_extend cs ds x h.2⟩

theorem isPre_append_false (p a x : List Char) (h : isPre (p.take a.length) a = false) :
    isPre p (a ++ x) = false := by
  cases hq : isPre p (a ++ x) with
  | false => rfl
  | true => exact absurd (isPre_take p a x hq) (by simp [h])

/-- A line that continues a fixed text `a` cannot start with `p` when `p`
already disagrees with `a`. -/
theorem lhp_false (p a x : String) (h : isPre (p.data.take a.data.length) a.data = false) :
    lineHasPfx p (a ++ x) = false := by
  unfold lineHasPfx
  rw [String.data_append]
  exact isPre_append_false _ _ _ h

/-- A line that continues a fixed text `a` starts with `p` when `p` is a
prefix of `a`. -/
theorem lhp_true (p a x : String) (h : isPre p.data a.data = true) :
    lineHasPfx p (a ++ x) = true := by
  unfold lineHasPfx
  rw [String.data_append]
  exact isPre_extend _ _ _ h

theorem sorted_keyLT {α K : Type} (f : α → K) [LinearOrder K] {l : List α}
    (hs : List.Sorted (keyLE f) l) (hn : (l.map f).Nodup) : List.Pairwise (keyLT f) l := by
  have hne : List.Pairwise (fun a b => f a ≠ f b) l := List.pairwise_map.mp hn
  exact (hs.and hne).imp (fun h => lt_of_le_of_ne h.1 h.2)

theorem sortByKey_perm {α K : Type} (f : α → K) [LinearOrder K] (l : List α) :
    (sortByKey f l).Perm l :=
  List.perm_insertionSort _ l

theorem mem_sortByKey {α K : Type} (f : α → K) [LinearOrder K] {l : List α} {a : α} :
    a ∈ sortByKey f l ↔ a ∈ l :=
  (sortByKey_perm f l).mem_iff

/-- Sorting by a key that has no duplicates is strictly sorted. -/
theorem sortByKey_sorted_lt {α K : Type} (f : α → K) [LinearOrder K] {l : List α}
    (hn : (l.map f).Nodup) : List.Pairwise (keyLT f) (sortByKey f l) :=
  sorted_keyLT f (List.sorted_insertionSort _ l)
    (((sortByKey_perm f l).map f).nodup_iff.mpr hn)

/-- Two permuted lists with duplicate-free keys sort to the same list. -/
theorem sortByKey_eq_of_perm {α K : Type} (f : α → K) [LinearOrder K] {l1 l2 : List α}
    (hp : l1.Perm l2) (hn : (l1.map f).Nodup) : sortByKey f l1 = sortByKey f l2 := by
  have hn2 : (l2.map f).Nodup := (hp.map f).nodup_iff.mp hn
  have p1 := sortByKey_perm f l1
  have p2 := sortByKey_perm f l2
  have ht1 : List.Sorted (keyLT f) (sortByKey f l1) := sortByKey_sorted_lt f hn
  have ht2 : List.Sorted (keyLT f) (sortByKey f l2) := sortByKey_sorted_lt f hn2
  exact List.eq_of_perm_of_sorted (p1.trans (hp.trans p2.symm)) ht1 ht2

theorem dlookup_eq_none {K V : Type} [DecidableEq K] {d : List (K × V)} {k : K} :
    dlookup k d = none ↔ k ∉ dkeys d := by
  induction d with
  | nil => simp [dlookup, dkeys]
  | cons kv rest ih =>
    by_cases he : kv.1 = k
    · simp [dlookup, he, dkeys]
    · simp [dlookup, he, dkeys, List.mem_map] at ih ⊢
      constructor
      · intro h
        rcases ih.mp h with h2
        exact ⟨fun habs => he habs.symm, h2⟩
      · intro h
        exact ih.mpr h.2

theorem mem_of_dlookup {K V : Type} [DecidableEq K] {d : List (K × V)} {k : K} {v : V}
    (h : dlookup k d = some v) : (k, v) ∈ d := by
  induction d with
  | nil => simp [dlookup] at h
  | cons kv rest ih =>
    by_cases he : kv.1 = k
    · rw [dlookup, if_pos he] at h
      have : kv = (k, v) := by
        injection h with h2
        exact Prod.ext he h2
      exact this ▸ List.mem_cons_self kv rest
    · rw [dlookup, if_neg he] at h
      exact List.mem_cons_of_mem kv (ih h)

theorem dlookup_eq_some_of_mem {K V : Type} [DecidableEq K] {d : List (K × V)} {k : K} {v : V}
    (hnd : NodupKeys d) (h : (k, v) ∈ d) : dlookup k d = some v := by
  induction d with
  | nil => cases h
  | cons kv rest ih =>
    have hcons := List.nodup_cons.mp hnd
    rcases List.mem_cons.mp h with heq | hmem
    · rw [← heq]
      simp [dlookup]
    · have hk : kv.1 ≠ k := by
        intro he
        exact hcons.1 (he ▸ List.mem_map.mpr ⟨(k, v), hmem, rfl⟩)
      rw [dlookup, if_neg hk]
      exact ih hcons.2 hmem

theorem mem_dkeys_iff_lookup {K V : Type} [DecidableEq K] {d : List (K × V)} {k : K} :
    k ∈ dkeys d ↔ ∃ v, dlookup k d = some v := by
  constructor
  · intro h
    cases hl : dlookup k d with
    | none => exact absurd (dlookup_eq_none.mp hl) (by simp [h])
    | some v => exact ⟨v, rfl⟩
  · rintro ⟨v, hv⟩
    by_contra hk
    rw [dlookup_eq_none.mpr hk] at hv
    cases hv

theorem filter_flatMap {α β : Type} (l : List α) (g : α → List β) (f : β → Bool) :
    (l.flatMap g).filter f = l.flatMap (fun a => (g a).filter f) := by
  induction l with
  | nil => rfl
  | cons a l ih => simp [List.flatMap_cons, List.filter_append, ih]

theorem flatMap_singletonEq {α β : Type} (l : List α) (g : α → β) :
    l.flatMap (fun a => [g a]) = l.map g := by
  induction l with
  | nil => rfl
  | cons a l ih => simp [List.flatMap_cons, ih]

theorem flatMap_nil_of {α β : Type} (l : List α) (f : α → List β)
    (h : ∀ a ∈ l, f a = []) : l.flatMap f = [] := by
  rw [List.flatMap_eq_nil_iff]
  exact h

theorem length_filterMap_ite {α β : Type} (l : List α) (P : α → Prop) [DecidablePred P]
    (g : α → β) :
    (l.filterMap (fun a => if P a then some (g a) else none)).length
      = (l.filter (fun a => decide (P a))).length := by
  induction l with
  | nil => rfl
  | cons a l ih =>
    by_cases hp : P a <;> simp [List.filterMap_cons, List.filter_cons, hp, ih]

/-! ## Which rendered lines start with which marker -/

theorem dep_taskHeaderLine (j : Int) :
    lineHasPfx "    depends:" (taskHeaderLine j) = false := lhp_false _ _ _ (by decide)

theorem dep_durationLine (d : Int) :
    lineHasPfx "    depends:" (durationLine d) = false := lhp_false _ _ _ (by decide)

theorem dep_assignLine (es : List String) :
    lineHasPfx "    depends:" (assignLine es) = false := lhp_false _ _ _ (by decide)

theorem dep_dependsLine (ps : List Int) :
    lineHasPfx "    depends:" (dependsLine ps) = true := lhp_true _ _ _ (by decide)

theorem dep_close : lineHasPfx "    depends:" "\x7d" = false := by decide

theorem task_taskHeaderLine (j : Int) :
    lineHasPfx "task " (taskHeaderLine j) = true := lhp_true _ _ _ (by decide)

theorem task_durationLine (d : Int) :
    lineHasPfx "task " (durationLine d) = false := lhp_false _ _ _ (by decide)

theorem task_assignLine (es : List String) :
    lineHasPfx "task " (assignLine es) = false := lhp_false _ _ _ (by decide)

theorem task_dependsLine (ps : List Int) :
    lineHasPfx "task " (dependsLine ps) = false := lhp_false _ _ _ (by decide)

theorem task_hdrName (s : String) :
    lineHasPfx "task " ("# PSPLIB Instance: " ++ s) = false := lhp_false _ _ _ (by decide)

theorem task_hdrJobs (s : String) :
    lineHasPfx "task " ("# Jobs: " ++ s) = false := lhp_false _ _ _ (by decide)

theorem task_optimalLine (m : Int) :
    lineHasPfx "task " (optimalLine m) = false := lhp_false _ _ _ (by decide)

theorem task_src :
    lineHasPfx "task " "# Source: https://www.om-db.wi.tum.de/psplib/" = false := by decide

theorem task_empty : lineHasPfx "task " "" = false := by decide

theorem task_projName (s : String) :
    lineHasPfx "task " ("project \"" ++ s) = false := lhp_false _ _ _ (by decide)

theorem task_start : lineHasPfx "task " "    start: 2026-01-05" = false := by decide

theorem task_calSet : lineHasPfx "task " "    calendar: continuous" = false := by decide

theorem task_close : lineHasPfx "task " "\x7d" = false := by decide

theorem task_calHdr : lineHasPfx "task " "calendar \"continuous\" \x7b" = false := by decide

theorem task_work :
    lineHasPfx "task " "    working_days: mon, tue, wed, thu, fri, sat, sun" = false := by
  decide

theorem task_resName (s : String) :
    lineHasPfx "task " ("resource " ++ s) = false := lhp_false _ _ _ (by decide)

theorem task_rate : lineHasPfx "task " "    rate: 100/day" = false := by decide

theorem task_capLine (s : String) :
    lineHasPfx "task " ("    # PSPLIB capacity: " ++ s) = false := lhp_false _ _ _ (by decide)

theorem opt_hdrName (s : String) :
    lineHasPfx "# Optimal Makespan:" ("# PSPLIB Instance: " ++ s) = false :=
  lhp_false _ _ _ (by decide)

theorem opt_hdrJobs (s : String) :
    lineHasPfx "# Optimal Makespan:" ("# Jobs: " ++ s) = false := lhp_false _ _ _ (by decide)

theorem opt_optimalLine (m : Int) :
    lineHasPfx "# Optimal Makespan:" (optimalLine m) = true := lhp_true _ _ _ (by decide)

theorem opt_src :
    lineHasPfx "# Optimal Makespan:" "# Source: https://www.om-db.wi.tum.de/psplib/" = false := by
  decide

theorem opt_empty : lineHasPfx "# Optimal Makespan:" "" = false := by decide

theorem opt_projName (s : String) :
    lineHasPfx "# Optimal Makespan:" ("project \"" ++ s) = false := lhp_false _ _ _ (by decide)

theorem opt_start : lineHasPfx "# Optimal Makespan:" "    start: 2026-01-05" = false := by decide

theorem opt_calSet :
    lineHasPfx "# Optimal Makespan:" "    calendar: continuous" = false := by decide

theorem opt_close : lineHasPfx "# Optimal Makespan:" "\x7d" = false := by decide

theorem opt_calHdr :
    lineHasPfx "# Optimal Makespan:" "calendar \"continuous\" \x7b" = false := by decide

theorem opt_work :
    lineHasPfx "# Optimal Makespan:"
      "    working_days: mon, tue, wed, thu, fri, sat, sun" = false := by decide

theorem opt_resName (s : String) :
    lineHasPfx "# Optimal Makespan:" ("resource " ++ s) = false := lhp_false _ _ _ (by decide)

theorem opt_rate : lineHasPfx "# Optimal Makespan:" "    rate: 100/day" = false := by decide

theorem opt_capLine (s : String) :
    lineHasPfx "# Optimal Makespan:" ("    # PSPLIB capacity: " ++ s) = false :=
  lhp_false _ _ _ (by decide)

theorem opt_taskHeaderLine (j : Int) :
    lineHasPfx "# Optimal Makespan:" (taskHeaderLine j) = false := lhp_false _ _ _ (by decide)

theorem opt_durationLine (d : Int) :
    lineHasPfx "# Optimal Makespan:" (durationLine d) = false := lhp_false _ _ _ (by decide)

theorem opt_assignLine (es : List String) :
    lineHasPfx "# Optimal Makespan:" (assignLine es) = false := lhp_false _ _ _ (by decide)

theorem opt_dependsLine (ps : List Int) :
    lineHasPfx "# Optimal Makespan:" (dependsLine ps) = false := lhp_false _ _ _ (by decide)

/-! ## Filtering each block of the rendered output by marker -/

theorem filter_dep_taskLines (inst : PSPLIBInstance) (j : Int) :
    (taskLines inst j).filter (lineHasPfx "    depends:") =
      (if (sortedPreds inst j).isEmpty then [] else [dependsLine (sortedPreds inst j)]) := by
  by_cases ha : (assignmentsOf inst j).isEmpty <;>
    by_cases hd : (sortedPreds inst j).isEmpty <;>
      simp [taskLines, ha, hd, List.filter_append, dep_taskHeaderLine, dep_durationLine,
        dep_assignLine, dep_dependsLine, dep_close]

theorem filter_task_taskLines (inst : PSPLIBInstance) (j : Int) :
    (taskLines inst j).filter (lineHasPfx "task ") = [taskHeaderLine j] := by
  by_cases ha : (assignmentsOf inst j).isEmpty <;>
    by_cases hd : (sortedPreds inst j).isEmpty <;>
      simp [taskLines, ha, hd, List.filter_append, task_taskHeaderLine, task_durationLine,
        task_assignLine, task_dependsLine, task_close]

theorem filter_opt_taskLines (inst : PSPLIBInstance) (j : Int) :
    (taskLines inst j).filter (lineHasPfx "# Optimal Makespan:") = [] := by
  by_cases ha : (assignmentsOf inst j).isEmpty <;>
    by_cases hd : (sortedPreds inst j).isEmpty <;>
      simp [taskLines, ha, hd, List.filter_append, opt_taskHeaderLine, opt_durationLine,
        opt_assignLine, opt_dependsLine, opt_close]

theorem filter_task_headerLines (inst : PSPLIBInstance) (opt : Option Int) :
    (headerLines inst opt).filter (lineHasPfx "task ") = [] := by
  rcases opt with _ | m
  · simp [headerLines, task_hdrName, task_hdrJobs, task_src, task_empty]
  · by_cases hm : m = 0 <;>
      simp [headerLines, hm, List.filter_append, task_hdrName, task_hdrJobs,
        task_optimalLine, task_src, task_empty]

theorem filter_opt_headerLines (inst : PSPLIBInstance) (opt : Option Int) :
    (headerLines inst opt).filter (lineHasPfx "# Optimal Makespan:") =
      (match opt with
       | none => []
       | some m => if m = 0 then [] else [optimalLine m]) := by
  rcases opt with _ | m
  · simp [headerLines, opt_hdrName, opt_hdrJobs, opt_src, opt_empty]
  · by_cases hm : m = 0 <;>
      simp [headerLines, hm, List.filter_append, opt_hdrName, opt_hdrJobs,
        opt_optimalLine, opt_src, opt_empty]

theorem filter_task_projectLines (inst : PSPLIBInstance) :
    (projectLines inst).filter (lineHasPfx "task ") = [] := by
  simp [projectLines, task_projName, task_start, task_calSet, task_close, task_empty]

theorem filter_opt_projectLines (inst : PSPLIBInstance) :
    (projectLines inst).filter (lineHasPfx "# Optimal Makespan:") = [] := by
  simp [projectLines, opt_projName, opt_start, opt_calSet, opt_close, opt_empty]

theorem filter_task_calendarLines :
    calendarLines.filter (lineHasPfx "task ") = [] := by decide

theorem filter_opt_calendarLines :
    calendarLines.filter (lineHasPfx "# Optimal Makespan:") = [] := by decide

theorem filter_task_resourceLines (inst : PSPLIBInstance) :
    (resourceLines inst).filter (lineHasPfx "task ") = [] := by
  unfold resourceLines
  rw [filter_flatMap]
  refine flatMap_nil_of _ _ (fun rc _ => ?_)
  simp [task_resName, task_rate, task_capLine, task_close]

theorem filter_opt_resourceLines (inst : PSPLIBInstance) :
    (resourceLines inst).filter (lineHasPfx "# Optimal Makespan:") = [] := by
  unfold resourceLines
  rw [filter_flatMap]
  refine flatMap_nil_of _ _ (fun rc _ => ?_)
  simp [opt_resName, opt_rate, opt_capLine, opt_close]

theorem filter_task_tasksBlock (inst : PSPLIBInstance) :
    ((real_jobs inst).flatMap (fun j => taskLines inst j)).filter (lineHasPfx "task ") =
      (real_jobs inst).map taskHeaderLine := by
  rw [filter_flatMap]
  simp only [filter_task_taskLines]
  exact flatMap_singletonEq _ _

theorem filter_opt_tasksBlock (inst : PSPLIBInstance) :
    ((real_jobs inst).flatMap (fun j => taskLines inst j)).filter
      (lineHasPfx "# Optimal Makespan:") = [] := by
  rw [filter_flatMap]
  refine flatMap_nil_of _ _ (fun j _ => ?_)
  exact filter_opt_taskLines inst j

/-! ## Characterizations of the embedded operations -/

theorem mem_real_jobs {inst : PSPLIBInstance} {j : Int} :
    j ∈ real_jobs inst ↔ (j ∈ dkeys inst.durations ∧ 0 < dgetD inst.durations j 0) := by
  unfold real_jobs
  rw [mem_sortByKey, List.mem_filter]
  simp

theorem mem_predecessorsOf {inst : PSPLIBInstance} {j p : Int}
    (hnd : NodupKeys inst.precedence) :
    p ∈ predecessorsOf inst j ↔
      (j ∈ dgetD inst.precedence p [] ∧ 0 < dgetD inst.durations p 0) := by
  unfold predecessorsOf
  constructor
  · intro hm
    rcases List.mem_map.mp hm with ⟨kv, hkv, hfst⟩
    rcases List.mem_filter.mp hkv with ⟨hmem, hq⟩
    rw [Bool.and_eq_true, decide_eq_true_eq, decide_eq_true_eq] at hq
    have hpair : (p, kv.2) ∈ inst.precedence := by
      rcases kv with ⟨k1, v1⟩
      simp only at hfst
      rw [← hfst]
      exact hmem
    have hl := dlookup_eq_some_of_mem hnd hpair
    refine ⟨?_, ?_⟩
    · unfold dgetD
      rw [hl]
      exact hq.1
    · rw [← hfst]
      exact hq.2
  · rintro ⟨hsucc, hdur⟩
    cases hl : dlookup p inst.precedence with
    | none =>
      unfold dgetD at hsucc
      rw [hl] at hsucc
      simp at hsucc
    | some v =>
      have hpair := mem_of_dlookup hl
      refine List.mem_map.mpr ⟨(p, v), List.mem_filter.mpr ⟨hpair, ?_⟩, rfl⟩
      rw [Bool.and_eq_true, decide_eq_true_eq, decide_eq_true_eq]
      refine ⟨?_, hdur⟩
      unfold dgetD at hsucc
      rw [hl] at hsucc
      exact hsucc

theorem pyInt?_cons (c : Char) (rest : List Char) (s : String) (hs : s.data = c :: rest) :
    pyInt? s =
      (if c = '-' then
        (if rest.isEmpty then none
         else if rest.all Char.isDigit then some (-(digitsVal rest : Int)) else none)
       else if c = '+' then
        (if rest.isEmpty then none
         else if rest.all Char.isDigit then some ((digitsVal rest : Int)) else none)
       else if (c :: rest).all Char.isDigit then some ((digitsVal (c :: rest) : Int))
       else none) := by
  unfold pyInt?
  rw [hs]

/-- A digit-string token always converts: `int(parts[0])` cannot raise
after an `isdigit()` guard. -/
theorem pyIsDigit_int {t : String} (h : pyIsDigit t = true) :
    pyInt? t = some ((digitsVal t.data : Nat) : Int) := by
  unfold pyIsDigit at h
  rw [Bool.and_eq_true] at h
  cases ht : t.data with
  | nil => rw [ht] at h; simp at h
  | cons c rest =>
    rw [ht] at h
    have hall : (c :: rest).all Char.isDigit = true := h.2
    have hc : c.isDigit = true := by
      have := List.all_eq_true.mp hall c (List.mem_cons_self c rest)
      exact this
    have hcm : ¬(c = '-') := fun he => by
      rw [he] at hc
      exact absurd hc (by decide)
    have hcp : ¬(c = '+') := fun he => by
      rw [he] at hc
      exact absurd hc (by decide)
    rw [pyInt?_cons c rest t ht, if_neg hcm, if_neg hcp, if_pos hall]

theorem parsePrecLine_skip (acc : List (Int × List Int)) (line : String)
    (h : (pySplit line).length < 3) : parsePrecLine acc line = Except.ok acc := by
  unfold parsePrecLine
  rcases hsp : pySplit line with _ | ⟨a, _ | ⟨b, _ | ⟨c, r⟩⟩⟩
  · rfl
  · rfl
  · rfl
  · rw [hsp] at h
    simp only [List.length_cons] at h
    omega

theorem parsePrecLine_err (acc : List (Int × List Int)) (line : String)
    (t0 t1 t2 : String) (r : List String) (hsp : pySplit line = t0 :: t1 :: t2 :: r)
    (h0 : pyInt? t0 = none) :
    parsePrecLine acc line = Except.error ("invalid literal for int(): " ++ t0) := by
  unfold parsePrecLine
  rw [hsp]
  simp [parsePrecTokens, h0]

theorem parsePrecLines_skip (acc : List (Int × List Int)) (line : String) (ls : List String)
    (h : (pySplit line).length < 3) :
    parsePrecLines acc (line :: ls) = parsePrecLines acc ls := by
  show (match parsePrecLine acc line with
        | Except.error e => Except.error e
        | Except.ok acc2 => parsePrecLines acc2 ls) = parsePrecLines acc ls
  rw [parsePrecLine_skip acc line h]

theorem parseReqLine_skip (numResources : Nat)
    (acc : List (Int × Int) × List (Int × List (String × Int))) (line : String)
    (h : (pySplit line).length < 3 ∨ pyIsDigit ((pySplit line).headD "") = false) :
    parseReqLine numResources acc line = Except.ok acc := by
  unfold parseReqLine
  rcases hsp : pySplit line with _ | ⟨a, _ | ⟨b, _ | ⟨c, r⟩⟩⟩
  · rfl
  · rfl
  · rfl
  · rcases h with h | h
    · rw [hsp] at h
      simp only [List.length_cons] at h
      omega
    · rw [hsp] at h
      simp only [List.headD_cons] at h
      simp [parseReqTokens, h]

theorem parseReqLines_skip (numResources : Nat)
    (acc : List (Int × Int) × List (Int × List (String × Int))) (line : String)
    (ls : List String)
    (h : (pySplit line).length < 3 ∨ pyIsDigit ((pySplit line).headD "") = false) :
    parseReqLines numResources acc (line :: ls) = parseReqLines numResources acc ls := by
  show (match parseReqLine numResources acc line with
        | Except.error e => Except.error e
        | Except.ok acc2 => parseReqLines numResources acc2 ls)
      = parseReqLines numResources acc ls
  rw [parseReqLine_skip numResources acc line h]

theorem solStep_skip_short (acc : List ((Int × Int) × Int)) (line : String)
    (h : (pySplit line).length < 3) : solStep acc line = Except.ok acc := by
  unfold solStep
  rcases hsp : pySplit line with _ | ⟨a, _ | ⟨b, _ | ⟨c, r⟩⟩⟩
  · rfl
  · rfl
  · rfl
  · rw [hsp] at h
    simp only [List.length_cons] at h
    omega

theorem solStep_skip_nondigit (acc : List ((Int × Int) × Int)) (line : String)
    (t0 t1 t2 : String) (r : List String) (hsp : pySplit line = t0 :: t1 :: t2 :: r)
    (h : pyIsDigit t0 = false) : solStep acc line = Except.ok acc := by
  unfold solStep
  rw [hsp]
  simp [solTokens, h]

theorem solStep_accept (acc : List ((Int × Int) × Int)) (line : String)
    (t0 t1 t2 : String) (r : List String) (p i m : Int)
    (hsp : pySplit line = t0 :: t1 :: t2 :: r) (hd : pyIsDigit t0 = true)
    (h0 : pyInt? t0 = some p) (h1 : pyInt? t1 = some i) (h2 : pyInt? t2 = some m) :
    solStep acc line = Except.ok (dinsert (p, i) m acc) := by
  unfold solStep
  rw [hsp]
  simp [solTokens, hd, h0, h1, h2]

theorem solStep_raise (acc : List ((Int × Int) × Int)) (line : String)
    (t0 t1 t2 : String) (r : List String)
    (hsp : pySplit line = t0 :: t1 :: t2 :: r) (hd : pyIsDigit t0 = true)
    (h1 : pyInt? t1 = none) :
    solStep acc line = Except.error ("invalid literal for int(): " ++ t1) := by
  unfold solStep
  rw [hsp]
  simp [solTokens, hd, pyIsDigit_int hd, h1]

theorem dictEquiv_lookup {K V : Type} [DecidableEq K] {d1 d2 : List (K × V)}
    (h : DictEquiv d1 d2) (k : K) : dlookup k d1 = dlookup k d2 := by
  by_cases h1 : k ∈ dkeys d1
  · exact h.2.2.1 k h1
  · by_cases h2 : k ∈ dkeys d2
    · exact h.2.2.2 k h2
    · rw [dlookup_eq_none.mpr h1, dlookup_eq_none.mpr h2]

theorem dictEquiv_perm {K V : Type} [DecidableEq K] {d1 d2 : List (K × V)}
    (h : DictEquiv d1 d2) : d1.Perm d2 := by
  have n1 : d1.Nodup := List.Nodup.of_map _ h.1
  have n2 : d2.Nodup := List.Nodup.of_map _ h.2.1
  refine (List.perm_ext_iff_of_nodup n1 n2).mpr (fun kv => ?_)
  constructor
  · intro hm
    have hl := dlookup_eq_some_of_mem h.1 (show (kv.1, kv.2) ∈ d1 from hm)
    rw [dictEquiv_lookup h kv.1] at hl
    exact mem_of_dlookup hl
  · intro hm
    have hl := dlookup_eq_some_of_mem h.2.1 (show (kv.1, kv.2) ∈ d2 from hm)
    rw [← dictEquiv_lookup h kv.1] at hl
    exact mem_of_dlookup hl

theorem dictEquiv_sortEq {K V : Type} [DecidableEq K] [LinearOrder K]
    {d1 d2 : List (K × V)} (h : DictEquiv d1 d2) :
    sortByKey Prod.fst d1 = sortByKey Prod.fst d2 :=
  sortByKey_eq_of_perm Prod.fst (dictEquiv_perm h) h.1

theorem demandsEquiv_lookup {d1 d2 : List (Int × List (String × Int))}
    (h : DemandsEquiv d1 d2) (k : Int) :
    OptDictEquiv (dlookup k d1) (dlookup k d2) := by
  by_cases h1 : k ∈ dkeys d1
  · exact h.2.2.1 k h1
  · by_cases h2 : k ∈ dkeys d2
    · exact h.2.2.2 k h2
    · rw [dlookup_eq_none.mpr h1, dlookup_eq_none.mpr h2]
      trivial

theorem real_jobs_equiv {i1 i2 : PSPLIBInstance}
    (hdur : DictEquiv i1.durations i2.durations) : real_jobs i1 = real_jobs i2 := by
  have hfix : ∀ j, dgetD i1.durations j 0 = dgetD i2.durations j 0 := fun j => by
    unfold dgetD
    rw [dictEquiv_lookup hdur]
  unfold real_jobs
  have hfc : (dkeys i1.durations).filter (fun j => decide (0 < dgetD i1.durations j 0))
      = (dkeys i1.durations).filter (fun j => decide (0 < dgetD i2.durations j 0)) :=
    List.filter_congr (fun j _ => by rw [hfix j])
  rw [hfc]
  have hkeys : (dkeys i1.durations).Perm (dkeys i2.durations) :=
    (dictEquiv_perm hdur).map Prod.fst
  refine sortByKey_eq_of_perm id (hkeys.filter _) ?_
  rw [List.map_id]
  exact List.Nodup.filter _ hdur.1

theorem sortedPreds_equiv {i1 i2 : PSPLIBInstance}
    (hprec : DictEquiv i1.precedence i2.precedence)
    (hdur : DictEquiv i1.durations i2.durations) (j : Int) :
    sortedPreds i1 j = sortedPreds i2 j := by
  have hfix : ∀ p, dgetD i1.durations p 0 = dgetD i2.durations p 0 := fun p => by
    unfold dgetD
    rw [dictEquiv_lookup hdur]
  unfold sortedPreds predecessorsOf
  have hfc : i1.precedence.filter
        (fun kv => decide (j ∈ kv.2) && decide (0 < dgetD i1.durations kv.1 0))
      = i1.precedence.filter
        (fun kv => decide (j ∈ kv.2) && decide (0 < dgetD i2.durations kv.1 0)) :=
    List.filter_congr (fun kv _ => by rw [hfix kv.1])
  rw [hfc]
  have hp : (i1.precedence.filter
        (fun kv => decide (j ∈ kv.2) && decide (0 < dgetD i2.durations kv.1 0))).Perm
      (i2.precedence.filter
        (fun kv => decide (j ∈ kv.2) && decide (0 < dgetD i2.durations kv.1 0))) :=
    (dictEquiv_perm hprec).filter _
  refine sortByKey_eq_of_perm id (hp.map Prod.fst) ?_
  rw [List.map_id]
  refine List.Nodup.sublist ?_ hprec.1
  exact (List.filter_sublist _).map Prod.fst

theorem sortedDemands_equiv {i1 i2 : PSPLIBInstance}
    (hdem : DemandsEquiv i1.demands i2.demands) (j : Int) :
    sortByKey Prod.fst (demandsOf i1 j) = sortByKey Prod.fst (demandsOf i2 j) := by
  have hj := demandsEquiv_lookup hdem j
  unfold demandsOf dgetD
  cases h1 : dlookup j i1.demands with
  | none =>
    cases h2 : dlookup j i2.demands with
    | none => rfl
    | some b =>
      rw [h1, h2] at hj
      exact hj.elim
  | some a =>
    cases h2 : dlookup j i2.demands with
    | none =>
      rw [h1, h2] at hj
      exact hj.elim
    | some b =>
      rw [h1, h2] at hj
      simp only [Option.getD_some]
      exact dictEquiv_sortEq hj

theorem assignmentsOf_equiv {i1 i2 : PSPLIBInstance}
    (hdem : DemandsEquiv i1.demands i2.demands)
    (hcap : DictEquiv i1.capacities i2.capacities) (j : Int) :
    assignmentsOf i1 j = assignmentsOf i2 j := by
  unfold assignmentsOf
  rw [sortedDemands_equiv hdem j]
  have hfe : (fun rd : String × Int =>
      if 0 < rd.2 then some (assignEntry i1 rd) else none)
      = (fun rd : String × Int => if 0 < rd.2 then some (assignEntry i2 rd) else none) := by
    funext rd
    unfold assignEntry dgetD
    rw [dictEquiv_lookup hcap]
  rw [hfe]

theorem taskLines_equiv {i1 i2 : PSPLIBInstance}
    (hprec : DictEquiv i1.precedence i2.precedence)
    (hdur : DictEquiv i1.durations i2.durations)
    (hdem : DemandsEquiv i1.demands i2.demands)
    (hcap : DictEquiv i1.capacities i2.capacities) (j : Int) :
    taskLines i1 j = taskLines i2 j := by
  have hd : dgetD i1.durations j 0 = dgetD i2.durations j 0 := by
    unfold dgetD
    rw [dictEquiv_lookup hdur]
  unfold taskLines
  rw [hd, assignmentsOf_equiv hdem hcap j, sortedPreds_equiv hprec hdur j]

/-- Claim C9: the translator is a pure, deterministic function of the
instance value: on instances equal as mappings (independently of the
insertion order of the `precedence`, `durations`, `demands` and
`capacities` dictionaries) and the same optional makespan, the produced
text is byte-for-byte identical. -/
theorem claim9 (i1 i2 : PSPLIBInstance) (optimalMakespan : Option Int)
    (h : InstEquiv i1 i2) :
    convert_to_proj i1 optimalMakespan = convert_to_proj i2 optimalMakespan := by
  obtain ⟨hname, hjobs, hres, hhor, hprec, hdur, hdem, hcap⟩ := h
  have hhdr : headerLines i1 optimalMakespan = headerLines i2 optimalMakespan := by
    unfold headerLines
    rw [hname, hjobs, hres]
  have hproj : projectLines i1 = projectLines i2 := by
    unfold projectLines
    rw [hname]
  have hresl : resourceLines i1 = resourceLines i2 := by
    unfold resourceLines
    rw [dictEquiv_sortEq hcap]
  have hreal : real_jobs i1 = real_jobs i2 := real_jobs_equiv hdur
  have htask : (fun j => taskLines i1 j) = (fun j => taskLines i2 j) :=
    funext (taskLines_equiv hprec hdur hdem hcap)
  unfold convert_to_proj convertLines
  rw [hhdr, hproj, hresl, hreal, htask]

theorem batch_fold_spec (convertFile : String → Except String String) :
    ∀ (cands : List String) (acc : BatchResult),
      cands.foldl (batchStep convertFile) acc =
        BatchResult.mk (acc.converted + (cands.filterMap (batchOut convertFile)).length)
          (acc.written ++ cands.filterMap (batchOut convertFile))
          (acc.warnings ++ cands.filterMap (batchWarn convertFile))
  | [], acc => by simp
  | n :: cands, acc => by
    rw [List.foldl_cons, batch_fold_spec convertFile cands (batchStep convertFile acc n)]
    unfold batchStep batchOut batchWarn
    by_cases hs : isSolutionFile n
    · simp [hs, List.filterMap_cons]
    · cases hc : convertFile n with
      | ok t =>
        simp [hs, hc, List.filterMap_cons, BatchResult.mk.injEq]
        omega
      | error e =>
        simp [hs, hc, List.filterMap_cons]

theorem demandListE_labels (ts : List String) :
    ∀ (i : Nat) (ds : List (String × Int)), demandListE i ts = Except.ok ds →
      ∀ rd ∈ ds, ∃ k, i < k ∧ k ≤ i + ts.length ∧ rd.1 = "R" ++ toString k := by
  induction ts with
  | nil =>
    intro i ds h rd hrd
    simp [demandListE] at h
    subst h
    cases hrd
  | cons t ts ih =>
    intro i ds h rd hrd
    unfold demandListE at h
    cases h0 : pyInt? t with
    | none => rw [h0] at h; simp at h
    | some v =>
      rw [h0] at h
      cases h1 : demandListE (i + 1) ts with
      | error e => rw [h1] at h; simp at h
      | ok rest =>
        rw [h1] at h
        injection h with h2
        rw [← h2] at hrd
        by_cases hv : (0 : Int) < v
        · rw [if_pos hv] at hrd
          rcases List.mem_cons.mp hrd with h3 | h3
          · refine ⟨i + 1, by omega, by simp only [List.length_cons]; omega, ?_⟩
            rw [h3]
          · rcases ih (i + 1) rest h1 rd h3 with ⟨k, hk1, hk2, hk3⟩
            exact ⟨k, by omega, by simp only [List.length_cons] at hk2 ⊢; omega, hk3⟩
        · rw [if_neg hv] at hrd
          rcases ih (i + 1) rest h1 rd hrd with ⟨k, hk1, hk2, hk3⟩
          exact ⟨k, by omega, by simp only [List.length_cons] at hk2 ⊢; omega, hk3⟩

theorem dinsert_forall {K V : Type} [DecidableEq K] (P : K × V → Prop) (k : K) (v : V)
    (d : List (K × V)) (hd : ∀ kv ∈ d, P kv) (hv : P (k, v)) :
    ∀ kv ∈ dinsert k v d, P kv := by
  induction d with
  | nil =>
    intro kv hkv
    simp [dinsert] at hkv
    rw [hkv]
    exact hv
  | cons a rest ih =>
    intro kv hkv
    unfold dinsert at hkv
    by_cases he : a.1 = k
    · rw [if_pos he] at hkv
      rcases List.mem_cons.mp hkv with h1 | h1
      · rw [h1]; exact hv
      · exact hd kv (List.mem_cons_of_mem a h1)
    · rw [if_neg he] at hkv
      rcases List.mem_cons.mp hkv with h1 | h1
      · rw [h1]; exact hd a (List.mem_cons_self a rest)
      · exact ih (fun kv2 hkv2 => hd kv2 (List.mem_cons_of_mem a hkv2)) kv h1

theorem parseReqTokens_labels (n : Nat)
    (acc : List (Int × Int) × List (Int × List (String × Int))) (ts : List String)
    (acc2 : List (Int × Int) × List (Int × List (String × Int)))
    (h : parseReqTokens n acc ts = Except.ok acc2) (hacc : DemandLabelsOK n acc.2) :
    DemandLabelsOK n acc2.2 := by
  match ts with
  | [] =>
    simp [parseReqTokens] at h
    rw [← h]
    exact hacc
  | [t0] =>
    simp [parseReqTokens] at h
    rw [← h]
    exact hacc
  | [t0, t1] =>
    simp [parseReqTokens] at h
    rw [← h]
    exact hacc
  | t0 :: t1 :: t2 :: rest =>
    simp only [parseReqTokens] at h
    by_cases hdig : pyIsDigit t0 = true
    · rw [if_pos hdig] at h
      cases h0 : pyInt? t0 with
      | none => rw [h0] at h; simp at h
      | some jobId =>
        rw [h0] at h
        cases h2 : pyInt? t2 with
        | none => rw [h2] at h; simp at h
        | some duration =>
          rw [h2] at h
          cases hdl : demandListE 0 (rest.take n) with
          | error e => rw [hdl] at h; simp at h
          | ok jobDemands =>
            rw [hdl] at h
            injection h with h3
            rw [← h3]
            refine dinsert_forall _ jobId jobDemands acc.2 hacc ?_
            intro rd hrd
            rcases demandListE_labels (rest.take n) 0 jobDemands hdl rd hrd with
              ⟨k, hk1, hk2, hk3⟩
            have hlen : (rest.take n).length ≤ n := by
              rw [List.length_take]
              omega
            exact ⟨k, by omega, by omega, hk3⟩
    · rw [if_neg hdig] at h
      injection h with h3
      rw [← h3]
      exact hacc

theorem parseReqLines_labels (n : Nat) (ls : List String) :
    ∀ (acc dd : List (Int × Int) × List (Int × List (String × Int))),
      parseReqLines n acc ls = Except.ok dd →
      DemandLabelsOK n acc.2 → DemandLabelsOK n dd.2 := by
  induction ls with
  | nil =>
    intro acc dd h hacc
    unfold parseReqLines at h
    injection h with h2
    rw [← h2]
    exact hacc
  | cons l ls ih =>
    intro acc dd h hacc
    unfold parseReqLines at h
    cases hstep : parseReqLine n acc l with
    | error e => rw [hstep] at h; simp at h
    | ok acc2 =>
      rw [hstep] at h
      exact ih acc2 dd h (parseReqTokens_labels n acc (pySplit l) acc2 hstep hacc)

theorem capList_mem (k : Nat) (l : List Nat) :
    ∀ (i : Nat), i < k → k ≤ i + l.length → ("R" ++ toString k) ∈ dkeys (capList i l) := by
  induction l with
  | nil =>
    intro i h1 h2
    simp at h2
    omega
  | cons c cs ih =>
    intro i h1 h2
    by_cases he : k = i + 1
    · simp [capList, dkeys, he]
    · have h1' : i + 1 < k := by omega
      have h2' : k ≤ (i + 1) + cs.length := by
        simp [List.length_cons] at h2
        omega
      simp only [capList, dkeys, List.map_cons, List.mem_cons]
      exact Or.inr (ih (i + 1) h1' h2')

theorem parseCaps_mem (n : Nat) (capToks : Option (List Nat)) (k : Nat)
    (h1 : 1 ≤ k) (h2 : k ≤ n) (hcap : CapTokensCover n capToks) :
    ("R" ++ toString k) ∈ dkeys (parseCaps n capToks) := by
  cases capToks with
  | none =>
    unfold parseCaps
    refine capList_mem k _ 0 (by omega) ?_
    simp [List.length_replicate]
    omega
  | some caps =>
    have hcap2 : n ≤ caps.length := hcap
    unfold parseCaps
    refine capList_mem k _ 0 (by omega) ?_
    have hl : (caps.take n).length = n := by
      rw [List.length_take]
      omega
    omega

/-- Dissection of a successful parse into its section results. -/
theorem parse_psplib_ok {name : String} {jt rt ht : Option Nat}
    {precSec reqSec : Option (List String)} {capToks : Option (List Nat)}
    {inst : PSPLIBInstance}
    (hp : parse_psplib name jt rt ht precSec reqSec capToks = Except.ok inst) :
    ∃ precd dd, precResult precSec = Except.ok precd
      ∧ reqResult (rt.getD 4) reqSec = Except.ok dd
      ∧ inst = PSPLIBInstance.mk name (jt.getD 0) (rt.getD 4) (ht.getD 100) precd dd.1 dd.2
          (parseCaps (rt.getD 4) capToks) := by
  revert hp
  unfold parse_psplib
  cases hprec : precResult precSec with
  | error e =>
    intro hp
    simp at hp
  | ok precd =>
    cases hreq : reqResult (rt.getD 4) reqSec with
    | error e =>
      intro hp
      simp at hp
    | ok dd =>
      intro hp
      simp at hp
      exact ⟨precd, dd, rfl, rfl, hp.symm⟩

/-! ## The claims -/

/-- Claim C1: for every job J rendered as a task, the depends line lists
exactly the set of predecessors P with J in successors(P) and
duration(P) > 0, sorted ascending and rendered as jP references on one
`    depends:` line; when this set is empty, no `    depends:` line occurs
in J's task block. -/
theorem claim1 (inst : PSPLIBInstance) (j : Int) (hnd : NodupKeys inst.precedence)
    (_hj : j ∈ real_jobs inst) :
    List.Sorted (fun a b : Int => a < b) (sortedPreds inst j)
    ∧ (∀ p : Int, p ∈ sortedPreds inst j ↔
        (j ∈ dgetD inst.precedence p [] ∧ 0 < dgetD inst.durations p 0))
    ∧ (taskLines inst j).filter (lineHasPfx "    depends:") =
        (if (sortedPreds inst j).isEmpty then []
         else ["    depends: " ++ String.intercalate ", "
                ((sortedPreds inst j).map (fun p => "j" ++ toString p))]) := by
  refine ⟨?_, ?_, ?_⟩
  · have hnodup : ((predecessorsOf inst j).map id).Nodup := by
      rw [List.map_id]
      unfold predecessorsOf
      exact List.Nodup.sublist ((List.filter_sublist _).map Prod.fst) hnd
    exact sortByKey_sorted_lt id hnodup
  · intro p
    unfold sortedPreds
    rw [mem_sortByKey]
    exact mem_predecessorsOf hnd
  · rw [filter_dep_taskLines]
    rfl

/-- Claim C1 witness: the amended statement at `instB`, job 2, whose one
predecessor (job 1, duration 2) yields the line `    depends: j1`. -/
theorem claim1_witness :
    NodupKeys instB.precedence ∧ (2 : Int) ∈ real_jobs instB ∧
      (List.Sorted (fun a b : Int => a < b) (sortedPreds instB 2)
       ∧ (∀ p : Int, p ∈ sortedPreds instB 2 ↔
           ((2 : Int) ∈ dgetD instB.precedence p [] ∧ 0 < dgetD instB.durations p 0))
       ∧ (taskLines instB 2).filter (lineHasPfx "    depends:") =
           (if (sortedPreds instB 2).isEmpty then []
            else ["    depends: " ++ String.intercalate ", "
                   ((sortedPreds instB 2).map (fun p => "j" ++ toString p))])) :=
  ⟨by decide, by decide, claim1 instB 2 (by decide) (by decide)⟩

/-- Claim C2 counterexample: the requests line "5 1 -3" parses (the guard
only checks the first token), storing duration -3 for job 5; that job is
excluded from the rendered tasks although its duration is not 0 — so
"excluded iff duration equals 0" fails on parsed instances. -/
theorem claim2_counterexample :
    parse_psplib "x" none none none none (some ["5 1 -3"]) none = Except.ok instNegDur
    ∧ (5 : Int) ∉ real_jobs instNegDur
    ∧ dgetD instNegDur.durations 5 0 = -3 := by decide

/-- Claim C2 (amended): a job is rendered iff its duration is strictly
positive — decided per job by the duration value alone; on instances whose
durations are all non-negative (every canonical benchmark), exclusion is
exactly "duration equals 0". -/
theorem claim2_amended (inst : PSPLIBInstance) (j : Int)
    (hnn : ∀ kv ∈ inst.durations, (0 : Int) ≤ kv.2) (hj : j ∈ dkeys inst.durations) :
    (j ∈ real_jobs inst ↔ (j ∈ dkeys inst.durations ∧ 0 < dgetD inst.durations j 0))
    ∧ ((j ∉ real_jobs inst) ↔ dgetD inst.durations j 0 = 0) := by
  refine ⟨mem_real_jobs, ?_⟩
  have h0 : (0 : Int) ≤ dgetD inst.durations j 0 := by
    rcases mem_dkeys_iff_lookup.mp hj with ⟨v, hv⟩
    have hnv := hnn (j, v) (mem_of_dlookup hv)
    unfold dgetD
    rw [hv]
    exact hnv
  rw [mem_real_jobs]
  constructor
  · intro hne
    by_contra hne0
    exact hne ⟨hj, lt_of_le_of_ne h0 (Ne.symm hne0)⟩
  · intro heq hmem
    rcases hmem with ⟨-, hpos⟩
    rw [heq] at hpos
    exact lt_irrefl 0 hpos

/-- Claim C2 witness: the amended statement at `instA`, job 1 (the
zero-duration supersource). -/
theorem claim2_witness :
    (∀ kv ∈ instA.durations, (0 : Int) ≤ kv.2) ∧ (1 : Int) ∈ dkeys instA.durations ∧
      (((1 : Int) ∈ real_jobs instA ↔
          ((1 : Int) ∈ dkeys instA.durations ∧ 0 < dgetD instA.durations 1 0))
       ∧ (((1 : Int) ∉ real_jobs instA) ↔ dgetD instA.durations 1 0 = 0)) :=
  ⟨by decide, by decide, claim2_amended instA 1 (by decide) (by decide)⟩

/-- Claim C3 counterexample: at demand 1 on capacity 8 (the exact 12.5
boundary) the claimed round-half-away-from-zero gives 13, but the rendered
assignment is `r1@12%`: Python's round() ties to even. -/
theorem claim3_counterexample :
    assignmentsOf instC3 2 = ["r1@12%"]
    ∧ pctOf 1 8 = 12
    ∧ specRoundHalfAway (1 * 100) 8 = 13 := by decide

/-- Claim C3 (amended): on an instance whose declared capacities are all
strictly positive — the hypothesis under which the source's
`round(demand * 100 / capacity)` cannot raise `ZeroDivisionError`, since the
fallback capacity 10 for undeclared labels is also positive — the rendered
assignment entries are exactly the strictly positive demands: one entry per
such resource, with percentage round-half-to-EVEN of d·100/c against the
declared capacity (e.g. d=1, c=8 yields 12%), and resources with zero or
absent demand contribute no entry.  At capacity 0 (parse-reachable from an
availabilities digit run `0`) Python raises and emits nothing, so the claim
is scoped away from that error path. -/
theorem claim3_amended (inst : PSPLIBInstance) (j : Int)
    (_hcap : ∀ rc ∈ inst.capacities, (0 : Int) < rc.2) :
    (assignmentsOf inst j).length
        = ((demandsOf inst j).filter (fun rd => decide (0 < rd.2))).length
    ∧ (∀ (r : String) (d : Int), (r, d) ∈ demandsOf inst j → 0 < d →
        assignEntry inst (r, d) ∈ assignmentsOf inst j)
    ∧ (∀ e ∈ assignmentsOf inst j, ∃ r d, (r, d) ∈ demandsOf inst j ∧ 0 < d ∧
        e = assignEntry inst (r, d)) := by
  refine ⟨?_, ?_, ?_⟩
  · unfold assignmentsOf
    rw [length_filterMap_ite (sortByKey Prod.fst (demandsOf inst j))
      (fun rd => 0 < rd.2) (assignEntry inst)]
    exact ((sortByKey_perm Prod.fst (demandsOf inst j)).filter _).length_eq
  · intro r d hmem hpos
    unfold assignmentsOf
    refine List.mem_filterMap.mpr ⟨(r, d), (mem_sortByKey Prod.fst).mpr hmem, ?_⟩
    rw [if_pos hpos]
  · intro e he
    unfold assignmentsOf at he
    rcases List.mem_filterMap.mp he with ⟨rd, hrd, hrde⟩
    by_cases hpos : 0 < rd.2
    · rw [if_pos hpos] at hrde
      injection hrde with h2
      exact ⟨rd.1, rd.2, (mem_sortByKey Prod.fst).mp hrd, hpos, h2.symm⟩
    · rw [if_neg hpos] at hrde
      cases hrde

/-- Claim C3 witness: the amended statement at `instC3` (declared capacity
R1 = 8, strictly positive), job 2 with demand 1 on R1. -/
theorem claim3_witness :
    (∀ rc ∈ instC3.capacities, (0 : Int) < rc.2) ∧
      ((assignmentsOf instC3 2).length
          = ((demandsOf instC3 2).filter (fun rd => decide (0 < rd.2))).length
       ∧ (∀ (r : String) (d : Int), (r, d) ∈ demandsOf instC3 2 → 0 < d →
           assignEntry instC3 (r, d) ∈ assignmentsOf instC3 2)
       ∧ (∀ e ∈ assignmentsOf instC3 2, ∃ r d, (r, d) ∈ demandsOf instC3 2 ∧ 0 < d ∧
           e = assignEntry instC3 (r, d))) :=
  ⟨by decide, claim3_amended instC3 2 (by decide)⟩

/-- Claim C4 counterexample: a readable file whose precedence section
contains the content line "a b c" (three tokens, non-integer fields) makes
parse raise a ValueError instead of skipping the line and returning an
Instance. -/
theorem claim4_counterexample :
    parse_psplib "x" none none none (some ["a b c"]) none none =
      Except.error "invalid literal for int(): a" := by decide

/-- Claim C4 (amended): absent sections degrade to their documented
defaults without raising (0 jobs, 4 resources, horizon 100, empty
dictionaries, default capacities), and content lines failing the guards
(precedence: fewer than 3 tokens; requests: fewer than 3 tokens or a
non-digit first token) are skipped silently; but a line that passes its
guard with a non-integer field in an integer position makes parse raise a
ValueError, which propagates — parse does not return an Instance on every
readable file. -/
theorem claim4_amended :
    (∀ (name : String) (jt rt ht : Option Nat),
      parse_psplib name jt rt ht none none none =
        Except.ok (PSPLIBInstance.mk name (jt.getD 0) (rt.getD 4) (ht.getD 100) [] [] []
          (parseCaps (rt.getD 4) none)))
    ∧ (∀ (acc : List (Int × List Int)) (line : String) (ls : List String),
        (pySplit line).length < 3 →
        parsePrecLines acc (line :: ls) = parsePrecLines acc ls)
    ∧ (∀ (n : Nat) (acc : List (Int × Int) × List (Int × List (String × Int)))
        (line : String) (ls : List String),
        ((pySplit line).length < 3 ∨ pyIsDigit ((pySplit line).headD "") = false) →
        parseReqLines n acc (line :: ls) = parseReqLines n acc ls)
    ∧ (∀ (acc : List (Int × List Int)) (line : String) (ls : List String)
        (t0 t1 t2 : String) (r : List String),
        pySplit line = t0 :: t1 :: t2 :: r → pyInt? t0 = none →
        parsePrecLines acc (line :: ls) =
          Except.error ("invalid literal for int(): " ++ t0)) := by
  refine ⟨?_, ?_, ?_, ?_⟩
  · intro name jt rt ht
    rfl
  · exact parsePrecLines_skip
  · exact parseReqLines_skip
  · intro acc line ls t0 t1 t2 r hsp h0
    show (match parsePrecLine acc line with
          | Except.error e => Except.error e
          | Except.ok acc2 => parsePrecLines acc2 ls) =
        Except.error ("invalid literal for int(): " ++ t0)
    rw [parsePrecLine_err acc line t0 t1 t2 r hsp h0]

/-- Claim C5 counterexample: the line "1 x 2" has 3 tokens and a digit
first token, so the loader calls int("x") and raises instead of skipping —
the scan is not non-raising on all text inputs. -/
theorem claim5_counterexample :
    parse_optimal_solutions "1 x 2" = Except.error "invalid literal for int(): x" := by
  decide

/-- Claim C5 (amended): a line is stored iff it has at least 3 whitespace
tokens AND a digit-string first token (not "the first three parse as
integers": "-1 2 3" is skipped); when the guard holds the second and third
tokens are converted with int(), and a malformed one raises rather than
being skipped; every line failing the guard is skipped silently.  The
spec's scenario "1 1 43\n2 1 47\nbadline\n3 1 39" does load as
(1,1)=43, (2,1)=47, (3,1)=39 with badline skipped. -/
theorem claim5_amended :
    parse_optimal_solutions "1 1 43\n2 1 47\nbadline\n3 1 39" =
      Except.ok [((1, 1), 43), ((2, 1), 47), ((3, 1), 39)]
    ∧ (∀ (acc : List ((Int × Int) × Int)) (line : String),
        (pySplit line).length < 3 → solStep acc line = Except.ok acc)
    ∧ (∀ (acc : List ((Int × Int) × Int)) (line : String) (t0 t1 t2 : String)
        (r : List String), pySplit line = t0 :: t1 :: t2 :: r → pyIsDigit t0 = false →
        solStep acc line = Except.ok acc)
    ∧ (∀ (acc : List ((Int × Int) × Int)) (line : String) (t0 t1 t2 : String)
        (r : List String) (p i m : Int), pySplit line = t0 :: t1 :: t2 :: r →
        pyIsDigit t0 = true → pyInt? t0 = some p → pyInt? t1 = some i →
        pyInt? t2 = some m → solStep acc line = Except.ok (dinsert (p, i) m acc))
    ∧ (∀ (acc : List ((Int × Int) × Int)) (line : String) (t0 t1 t2 : String)
        (r : List String), pySplit line = t0 :: t1 :: t2 :: r →
        pyIsDigit t0 = true → pyInt? t1 = none →
        solStep acc line = Except.error ("invalid literal for int(): " ++ t1)) := by
  refine ⟨by decide, ?_, ?_, ?_, ?_⟩
  · exact solStep_skip_short
  · exact solStep_skip_nondigit
  · exact solStep_accept
  · exact solStep_raise

/-- Claim C6 counterexample: with 2 declared resources, the requests line
"3 1 5 1 1" stores demands on R1 and R2, but an availabilities line
supplying only one integer leaves the capacities dictionary with key R1
only: label R2 occurs in `demands` and not in `capacities`. -/
theorem claim6_counterexample :
    parse_psplib "x" none (some 2) none none (some ["3 1 5 1 1"]) (some [7]) =
      Except.ok instShortCaps
    ∧ "R2" ∈ dkeys (dgetD instShortCaps.demands 3 [])
    ∧ "R2" ∉ dkeys instShortCaps.capacities := by decide

/-- Claim C6 (amended): every demand label a parsed instance stores is
among R1..R{resources}, and it also occurs among the capacities keys
whenever the availabilities block is absent (defaults cover R1..Rn) or
supplies at least `resources` integers; if that line supplies fewer
integers, demand labels beyond them are missing from `capacities` (the
translator then falls back to capacity 10). -/
theorem claim6_amended (name : String) (jt rt ht : Option Nat)
    (precSec reqSec : Option (List String)) (capToks : Option (List Nat))
    (inst : PSPLIBInstance)
    (hp : parse_psplib name jt rt ht precSec reqSec capToks = Except.ok inst)
    (hcap : CapTokensCover inst.resources capToks) :
    ∀ jobId ∈ dkeys inst.demands, ∀ rd ∈ dgetD inst.demands jobId [],
      rd.1 ∈ dkeys inst.capacities := by
  rcases parse_psplib_ok hp with ⟨precd, dd, hprec, hreq, hinst⟩
  clear hp
  subst hinst
  have hlab : DemandLabelsOK (rt.getD 4) dd.2 := by
    cases reqSec with
    | none =>
      simp [reqResult] at hreq
      rw [← hreq]
      intro kv hkv
      cases hkv
    | some ls =>
      exact parseReqLines_labels (rt.getD 4) ls ([], []) dd hreq
        (fun kv hkv => absurd hkv (List.not_mem_nil kv))
  intro jobId hjid rd hrd
  have hj2 : jobId ∈ dkeys dd.2 := hjid
  rcases mem_dkeys_iff_lookup.mp hj2 with ⟨inner, hv⟩
  have hmem : (jobId, inner) ∈ dd.2 := mem_of_dlookup hv
  have hget : dgetD dd.2 jobId [] = inner := by
    unfold dgetD
    rw [hv]
    rfl
  have hrd2 : rd ∈ inner := by
    have hrd3 : rd ∈ dgetD dd.2 jobId [] := hrd
    rw [hget] at hrd3
    exact hrd3
  rcases hlab (jobId, inner) hmem rd hrd2 with ⟨k, hk1, hk2, hk3⟩
  rw [hk3]
  exact parseCaps_mem (rt.getD 4) capToks k hk1 hk2 hcap

/-- Claim C6 witness: the amended statement at a parse whose
availabilities line supplies both declared capacities. -/
theorem claim6_witness :
    parse_psplib "x" none (some 2) none none (some ["3 1 5 1 1"]) (some [7, 9]) =
      Except.ok instFullCaps
    ∧ CapTokensCover instFullCaps.resources (some [7, 9])
    ∧ (∀ jobId ∈ dkeys instFullCaps.demands, ∀ rd ∈ dgetD instFullCaps.demands jobId [],
        rd.1 ∈ dkeys instFullCaps.capacities) :=
  ⟨by decide, by decide,
    claim6_amended "x" none (some 2) none none (some ["3 1 5 1 1"]) (some [7, 9])
      instFullCaps (by decide) (by decide)⟩

/-- Claim C7: over any directory listing, each candidate file's conversion
failure is absorbed (a warning naming the file and the cause is appended
and the loop continues), and the returned count equals exactly the number
of files successfully written: the written outputs are the successful
conversions in order, the warnings the failed ones. -/
theorem claim7 (files : List String) (convertFile : String → Except String String) :
    (batch_convert files convertFile).converted
        = (batch_convert files convertFile).written.length
    ∧ (batch_convert files convertFile).written
        = (candidateFiles files).filterMap (batchOut convertFile)
    ∧ (batch_convert files convertFile).warnings
        = (candidateFiles files).filterMap (batchWarn convertFile) := by
  unfold batch_convert
  rw [batch_fold_spec convertFile (candidateFiles files) (BatchResult.mk 0 [] [])]
  simp

/-- Claim C8: the task blocks of the rendered output appear in strictly
ascending job-id order: the lines starting "task " are exactly the task
headers of `real_jobs`, in order, and `real_jobs` is strictly ascending. -/
theorem claim8 (inst : PSPLIBInstance) (opt : Option Int)
    (hnd : NodupKeys inst.durations) :
    List.Sorted (fun a b : Int => a < b) (real_jobs inst)
    ∧ (convertLines inst opt).filter (lineHasPfx "task ")
        = (real_jobs inst).map taskHeaderLine := by
  constructor
  · have hnodup : (((dkeys inst.durations).filter
        (fun j => decide (0 < dgetD inst.durations j 0))).map id).Nodup := by
      rw [List.map_id]
      exact List.Nodup.filter _ hnd
    exact sortByKey_sorted_lt id hnodup
  · unfold convertLines
    rw [List.filter_append, List.filter_append, List.filter_append, List.filter_append,
      List.filter_append, List.filter_append]
    rw [filter_task_headerLines, filter_task_projectLines, filter_task_calendarLines,
      filter_task_resourceLines, filter_task_tasksBlock]
    simp [List.filter, task_empty]

/-- Claim C8 witness: the statement at `instA` with makespan comment 43. -/
theorem claim8_witness :
    NodupKeys instA.durations ∧
      (List.Sorted (fun a b : Int => a < b) (real_jobs instA)
       ∧ (convertLines instA (some 43)).filter (lineHasPfx "task ")
           = (real_jobs instA).map taskHeaderLine) :=
  ⟨by decide, claim8 instA (some 43) (by decide)⟩

/-- Claim C9 witness: two stores of the same instance mappings in
different insertion orders render identically. -/
theorem claim9_witness :
    InstEquiv instC instD
    ∧ convert_to_proj instC (some 7) = convert_to_proj instD (some 7) :=
  ⟨by decide, claim9 instC instD (some 7) (by decide)⟩

/-- Claim C10: the `# Optimal Makespan` header comment occurs in the
rendered lines iff a non-zero makespan is supplied: with `some m`, `m ≠ 0`
exactly one such line occurs (for makespan m), and with `some 0` or `none`
none does. -/
theorem claim10 (inst : PSPLIBInstance) (opt : Option Int) :
    (convertLines inst opt).filter (lineHasPfx "# Optimal Makespan:")
      = (match opt with
         | none => []
         | some m => if m = 0 then [] else [optimalLine m]) := by
  unfold convertLines
  rw [List.filter_append, List.filter_append, List.filter_append, List.filter_append,
    List.filter_append, List.filter_append]
  rw [filter_opt_headerLines, filter_opt_projectLines, filter_opt_calendarLines,
    filter_opt_resourceLines, filter_opt_tasksBlock]
  rcases opt with _ | m
  · simp [List.filter, opt_empty]
  · by_cases hm : m = 0 <;> simp [hm, List.filter, opt_empty]
